import Mathlib

/-!
# Fortran glue of libctl (`src/base/ctl-f77-glue.c`)

A shallow embedding of the Fortran-callable wrappers and the properties of
their string handling, pass-through marshalling and external names.

Conventions of the embedding

* A `char` buffer is a `List Byte`; its length is the number of bytes the
  caller owns.  A read or write outside the buffer is undefined behaviour in
  C and makes the embedded function return `none`.
* A by-reference parameter is passed as its value on entry, and the value it
  holds on return is part of the result.
* An `int` has 32 bits.  The lengths and capacities a caller passes in are
  natural numbers (a negative length indexes before the buffer).  A length the
  glue stores is an `Int`: the assignment of a `size_t` to an `int` keeps the
  low 32 bits, read in two's complement (`intOfSize`).
* The functions of `ctl.h` are not part of the file; the wrappers take them
  as the fields of a `Lib`.  A library call that does not return normally
  yields `none`, and the library does not write through a `char *` argument.
* Distinct buffer parameters of one call do not overlap.
-/

namespace CtlF77

/-- One `char`. -/
abbrev Byte := UInt8

/-! ## C library: `strlen`, `strncpy` (ISO C 7.21) -/

/-- C `strlen(s)`: the number of bytes before the first zero byte; `none` when
the buffer holds no zero byte (the scan leaves the buffer). -/
def strlen : List Byte → Option Nat
  | [] => none
  | c :: cs => if c = 0 then some 0 else (strlen cs).map (fun k => k + 1)

/-- The tail of `strncpy`: `n` zero bytes are written at the front of `dest`;
`none` when `dest` holds fewer than `n` bytes. -/
def padNul : List Byte → Nat → Option (List Byte)
  | dest, 0 => some dest
  | [], _ + 1 => none
  | _ :: ds, n + 1 => (padNul ds n).map (fun t => 0 :: t)

/-- C `strncpy(dest, src, n)`: exactly `n` bytes of `dest` are written, the
bytes of `src` up to its first zero byte and zero bytes after them; when the
first `n` bytes of `src` hold no zero byte none is written.  The result is the
new content of `dest`; `none` when a byte outside `dest` or `src` is touched. -/
def strncpy : List Byte → List Byte → Nat → Option (List Byte)
  | dest, _, 0 => some dest
  | [], _, _ + 1 => none
  | _ :: _, [], _ + 1 => none
  | _ :: ds, c :: cs, n + 1 =>
      if c = 0 then (padNul ds n).map (fun t => 0 :: t)
      else (strncpy ds cs n).map (fun t => c :: t)

/-- The C string at a `char *`: the bytes before the first zero byte; `none`
when the buffer holds no zero byte. -/
def cstring (s : List Byte) : Option (List Byte) :=
  (strlen s).map (fun k => s.take k)

/-- The conversion of the assignment `*result_length = strlen(r)`, from
`size_t` to a 32-bit `int`: the value modulo `2^32`, read in two's
complement. -/
def intOfSize (n : Nat) : Int :=
  (((n + 2 ^ 31) % 2 ^ 32 : Nat) : Int) - 2 ^ 31

/-! ## The glue: string parameters -/

/-- The source has `#define fcp2ccp(fs) (fs)` outside the Cray branch. -/
def fcp2ccp (fs : List Byte) : List Byte := fs

/-- The assignment `s[i] = 0`; `none` when index `i` is outside the buffer. -/
def storeNul (s : List Byte) (i : Nat) : Option (List Byte) :=
  if i < s.length then some (s.set i 0) else none

/-! ## Types and functions of `ctl.h` -/

/-- The `vector3` of `ctl.h`: three numbers (an array of 3 reals in Fortran). -/
structure Vector3 (number : Type) where
  x : number
  y : number
  z : number
deriving DecidableEq, Repr

/-- The functions of the wrapped library that the glue calls.  The types
`number`, `integer`, `boolean`, `list` and `object` are those of `ctl.h`;
`σ` is the state of the interpreter that the variable getters read and the
setters change.  A `char *` argument is the buffer it points to, a returned
`char *` is the allocated block. -/
structure Lib (number integer boolean list object σ : Type) where
  vector3_scale : number → Vector3 number → Vector3 number
  vector3_plus : Vector3 number → Vector3 number → Vector3 number
  vector3_minus : Vector3 number → Vector3 number → Vector3 number
  vector3_cross : Vector3 number → Vector3 number → Vector3 number
  vector3_dot : Vector3 number → Vector3 number → number
  vector3_norm : Vector3 number → number
  ctl_get_number : σ → List Byte → Option number
  ctl_get_integer : σ → List Byte → Option integer
  ctl_get_boolean : σ → List Byte → Option boolean
  ctl_get_list : σ → List Byte → Option list
  ctl_get_object : σ → List Byte → Option object
  ctl_get_vector3 : σ → List Byte → Option (Vector3 number)
  ctl_get_string : σ → List Byte → Option (List Byte)
  ctl_set_number : σ → List Byte → number → Option σ
  ctl_set_integer : σ → List Byte → integer → Option σ
  ctl_set_boolean : σ → List Byte → boolean → Option σ
  ctl_set_list : σ → List Byte → list → Option σ
  ctl_set_object : σ → List Byte → object → Option σ
  ctl_set_vector3 : σ → List Byte → Vector3 number → Option σ
  ctl_set_string : σ → List Byte → List Byte → Option σ
  list_length : list → Option Int
  number_list_ref : list → Int → Option number
  integer_list_ref : list → Int → Option integer
  boolean_list_ref : list → Int → Option boolean
  vector3_list_ref : list → Int → Option (Vector3 number)
  list_list_ref : list → Int → Option list
  object_list_ref : list → Int → Option object
  string_list_ref : list → Int → Option (List Byte)
  make_number_list : Int → List number → Option list
  make_integer_list : Int → List integer → Option list
  make_boolean_list : Int → List boolean → Option list
  make_vector3_list : Int → List (Vector3 number) → Option list
  make_list_list : Int → List list → Option list
  make_object_list : Int → List object → Option list
  object_is_member : List Byte → object → Option boolean
  number_object_property : object → List Byte → Option number
  integer_object_property : object → List Byte → Option integer
  boolean_object_property : object → List Byte → Option boolean
  vector3_object_property : object → List Byte → Option (Vector3 number)
  list_object_property : object → List Byte → Option list
  object_object_property : object → List Byte → Option object
  string_object_property : object → List Byte → Option (List Byte)

variable {number integer boolean list object σ : Type}

/-! ## Wrappers that return a string -/

/-- Source `ctlgetstring`: on return the identifier buffer, the result buffer
and `*result_length`. -/
def ctlgetstring (L : Lib number integer boolean list object σ) (st : σ)
    (identifier : List Byte) (length : Nat) (result : List Byte) (result_length : Nat) :
    Option (List Byte × List Byte × Int) := do
  let s ← storeNul (fcp2ccp identifier) length
  let r ← L.ctl_get_string st s
  let result1 ← strncpy (fcp2ccp result) r result_length
  let n ← strlen r
  pure (s, result1, if result_length < n then intOfSize n else (result_length : Int))

/-- Source `stringlistref`: on return the value buffer and `*value_length`. -/
def stringlistref (L : Lib number integer boolean list object σ)
    (l : list) (index : Int) (value : List Byte) (value_length : Nat) :
    Option (List Byte × Int) := do
  let v ← L.string_list_ref l index
  let value1 ← strncpy (fcp2ccp value) v value_length
  let n ← strlen v
  pure (value1, if value_length < n then intOfSize n else (value_length : Int))

/-- Source `stringobjectproperty`: on return the property-name buffer, the
result buffer and `*result_length`. -/
def stringobjectproperty (L : Lib number integer boolean list object σ)
    (o : object) (property_name : List Byte) (length : Nat)
    (result : List Byte) (result_length : Nat) :
    Option (List Byte × List Byte × Int) := do
  let s ← storeNul (fcp2ccp property_name) length
  let r ← L.string_object_property o s
  let result1 ← strncpy (fcp2ccp result) r result_length
  let n ← strlen r
  pure (s, result1, if result_length < n then intOfSize n else (result_length : Int))

/-! ## Variable getters and setters -/

/-- Source `ctlgetnumber`: on return the identifier buffer and `*result`. -/
def ctlgetnumber (L : Lib number integer boolean list object σ) (st : σ) 
    (identifier : List Byte) (length : Nat) : Option (List Byte × number) := do
  let s ← storeNul (fcp2ccp identifier) length
  let result ← L.ctl_get_number st s
  pure (s, result)

/-- Source `ctlgetinteger`: on return the identifier buffer and `*result`. -/
def ctlgetinteger (L : Lib number integer boolean list object σ) (st : σ) 
    (identifier : List Byte) (length : Nat) : Option (List Byte × integer) := do
  let s ← storeNul (fcp2ccp identifier) length
  let result ← L.ctl_get_integer st s
  pure (s, result)

/-- Source `ctlgetboolean`: on return the identifier buffer and `*result`. -/
def ctlgetboolean (L : Lib number integer boolean list object σ) (st : σ) 
    (identifier : List Byte) (length : Nat) : Option (List Byte × boolean) := do
  let s ← storeNul (fcp2ccp identifier) length
  let result ← L.ctl_get_boolean st s
  pure (s, result)

/-- Source `ctlgetlist`: on return the identifier buffer and `*result`. -/
def ctlgetlist (L : Lib number integer boolean list object σ) (st : σ) 
    (identifier : List Byte) (length : Nat) : Option (List Byte × list) := do
  let s ← storeNul (fcp2ccp identifier) length
  let result ← L.ctl_get_list st s
  pure (s, result)

/-- Source `ctlgetobject`: on return the identifier buffer and `*result`. -/
def ctlgetobject (L : Lib number integer boolean list object σ) (st : σ) 
    (identifier : List Byte) (length : Nat) : Option (List Byte × object) := do
  let s ← storeNul (fcp2ccp identifier) length
  let result ← L.ctl_get_object st s
  pure (s, result)

/-- Source `ctlgetvector3`: on return the identifier buffer and `*result`. -/
def ctlgetvector3 (L : Lib number integer boolean list object σ) (st : σ) 
    (identifier : List Byte) (length : Nat) : Option (List Byte × Vector3 number) := do
  let s ← storeNul (fcp2ccp identifier) length
  let result ← L.ctl_get_vector3 st s
  pure (s, result)

/-- Source `ctlsetnumber`: on return the identifier buffer and the library state. -/
def ctlsetnumber (L : Lib number integer boolean list object σ) (st : σ)
    (identifier : List Byte) (length : Nat) (value : number) : Option (List Byte × σ) := do
  let s ← storeNul (fcp2ccp identifier) length
  let st1 ← L.ctl_set_number st s value
  pure (s, st1)

/-- Source `ctlsetinteger`: on return the identifier buffer and the library state. -/
def ctlsetinteger (L : Lib number integer boolean list object σ) (st : σ)
    (identifier : List Byte) (length : Nat) (value : integer) : Option (List Byte × σ) := do
  let s ← storeNul (fcp2ccp identifier) length
  let st1 ← L.ctl_set_integer st s value
  pure (s, st1)

/-- Source `ctlsetboolean`: on return the identifier buffer and the library state. -/
def ctlsetboolean (L : Lib number integer boolean list object σ) (st : σ)
    (identifier : List Byte) (length : Nat) (value : boolean) : Option (List Byte × σ) := do
  let s ← storeNul (fcp2ccp identifier) length
  let st1 ← L.ctl_set_boolean st s value
  pure (s, st1)

/-- Source `ctlsetlist`: on return the identifier buffer and the library state. -/
def ctlsetlist (L : Lib number integer boolean list object σ) (st : σ)
    (identifier : List Byte) (length : Nat) (value : list) : Option (List Byte × σ) := do
  let s ← storeNul (fcp2ccp identifier) length
  let st1 ← L.ctl_set_list st s value
  pure (s, st1)

/-- Source `ctlsetobject`: on return the identifier buffer and the library state. -/
def ctlsetobject (L : Lib number integer boolean list object σ) (st : σ)
    (identifier : List Byte) (length : Nat) (value : object) : Option (List Byte × σ) := do
  let s ← storeNul (fcp2ccp identifier) length
  let st1 ← L.ctl_set_object st s value
  pure (s, st1)

/-- Source `ctlsetvector3`: on return the identifier buffer and the library state. -/
def ctlsetvector3 (L : Lib number integer boolean list object σ) (st : σ)
    (identifier : List Byte) (length : Nat) (value : Vector3 number) : Option (List Byte × σ) := do
  let s ← storeNul (fcp2ccp identifier) length
  let st1 ← L.ctl_set_vector3 st s value
  pure (s, st1)

/-- Source `ctlsetstring`: on return the identifier buffer, the value buffer
and the library state. -/
def ctlsetstring (L : Lib number integer boolean list object σ) (st : σ)
    (identifier : List Byte) (length : Nat) (value : List Byte) (value_length : Nat) :
    Option (List Byte × List Byte × σ) := do
  let s := fcp2ccp identifier
  let v := fcp2ccp value
  let s ← storeNul s length
  let v ← storeNul v value_length
  let st1 ← L.ctl_set_string st s v
  pure (s, v, st1)

/-! ## List traversal and creation -/

/-- Source `listlength`: the value of `*len` on return. -/
def listlength (L : Lib number integer boolean list object σ) (l : list) : Option Int :=
  L.list_length l

/-- Source `numberlistref`: the value of `*value` on return. -/
def numberlistref (L : Lib number integer boolean list object σ) (l : list) (index : Int) : Option (number) :=
  L.number_list_ref l index

/-- Source `integerlistref`: the value of `*value` on return. -/
def integerlistref (L : Lib number integer boolean list object σ) (l : list) (index : Int) : Option (integer) :=
  L.integer_list_ref l index

/-- Source `booleanlistref`: the value of `*value` on return. -/
def booleanlistref (L : Lib number integer boolean list object σ) (l : list) (index : Int) : Option (boolean) :=
  L.boolean_list_ref l index

/-- Source `vector3listref`: the value of `*value` on return. -/
def vector3listref (L : Lib number integer boolean list object σ) (l : list) (index : Int) : Option (Vector3 number) :=
  L.vector3_list_ref l index

/-- Source `listlistref`: the value of `*value` on return. -/
def listlistref (L : Lib number integer boolean list object σ) (l : list) (index : Int) : Option (list) :=
  L.list_list_ref l index

/-- Source `objectlistref`: the value of `*value` on return. -/
def objectlistref (L : Lib number integer boolean list object σ) (l : list) (index : Int) : Option (object) :=
  L.object_list_ref l index

/-- Source `makenumberlist`: the value of `*result` on return; `items` is the
array the pointer designates. -/
def makenumberlist (L : Lib number integer boolean list object σ) (num_items : Int) (items : List (number)) : Option list :=
  L.make_number_list num_items items

/-- Source `makeintegerlist`: the value of `*result` on return; `items` is the
array the pointer designates. -/
def makeintegerlist (L : Lib number integer boolean list object σ) (num_items : Int) (items : List (integer)) : Option list :=
  L.make_integer_list num_items items

/-- Source `makebooleanlist`: the value of `*result` on return; `items` is the
array the pointer designates. -/
def makebooleanlist (L : Lib number integer boolean list object σ) (num_items : Int) (items : List (boolean)) : Option list :=
  L.make_boolean_list num_items items

/-- Source `makevector3list`: the value of `*result` on return; `items` is the
array the pointer designates. -/
def makevector3list (L : Lib number integer boolean list object σ) (num_items : Int) (items : List (Vector3 number)) : Option list :=
  L.make_vector3_list num_items items

/-- Source `makelistlist`: the value of `*result` on return; `items` is the
array the pointer designates. -/
def makelistlist (L : Lib number integer boolean list object σ) (num_items : Int) (items : List (list)) : Option list :=
  L.make_list_list num_items items

/-- Source `makeobjectlist`: the value of `*result` on return; `items` is the
array the pointer designates. -/
def makeobjectlist (L : Lib number integer boolean list object σ) (num_items : Int) (items : List (object)) : Option list :=
  L.make_object_list num_items items

/-! ## Object properties -/

/-- Source `objectismember`: on return the type-name buffer and `*result`. -/
def objectismember (L : Lib number integer boolean list object σ)
    (type_name : List Byte) (length : Nat) (o : object) : Option (List Byte × boolean) := do
  let s ← storeNul (fcp2ccp type_name) length
  let result ← L.object_is_member s o
  pure (s, result)

/-- Source `numberobjectproperty`: on return the property-name buffer and `*result`. -/
def numberobjectproperty (L : Lib number integer boolean list object σ) (o : object)
    (property_name : List Byte) (length : Nat) : Option (List Byte × number) := do
  let s ← storeNul (fcp2ccp property_name) length
  let result ← L.number_object_property o s
  pure (s, result)

/-- Source `integerobjectproperty`: on return the property-name buffer and `*result`. -/
def integerobjectproperty (L : Lib number integer boolean list object σ) (o : object)
    (property_name : List Byte) (length : Nat) : Option (List Byte × integer) := do
  let s ← storeNul (fcp2ccp property_name) length
  let result ← L.integer_object_property o s
  pure (s, result)

/-- Source `booleanobjectproperty`: on return the property-name buffer and `*result`. -/
def booleanobjectproperty (L : Lib number integer boolean list object σ) (o : object)
    (property_name : List Byte) (length : Nat) : Option (List Byte × boolean) := do
  let s ← storeNul (fcp2ccp property_name) length
  let result ← L.boolean_object_property o s
  pure (s, result)

/-- Source `vector3objectproperty`: on return the property-name buffer and `*result`. -/
def vector3objectproperty (L : Lib number integer boolean list object σ) (o : object)
    (property_name : List Byte) (length : Nat) : Option (List Byte × Vector3 number) := do
  let s ← storeNul (fcp2ccp property_name) length
  let result ← L.vector3_object_property o s
  pure (s, result)

/-- Source `listobjectproperty`: on return the property-name buffer and `*result`. -/
def listobjectproperty (L : Lib number integer boolean list object σ) (o : object)
    (property_name : List Byte) (length : Nat) : Option (List Byte × list) := do
  let s ← storeNul (fcp2ccp property_name) length
  let result ← L.list_object_property o s
  pure (s, result)

/-- Source `objectobjectproperty`: on return the property-name buffer and `*result`. -/
def objectobjectproperty (L : Lib number integer boolean list object σ) (o : object)
    (property_name : List Byte) (length : Nat) : Option (List Byte × object) := do
  let s ← storeNul (fcp2ccp property_name) length
  let result ← L.object_object_property o s
  pure (s, result)

/-! ## Vector functions -/

/-- The reals of the Fortran caller: an address holds one `number`.  A
`vector3` occupies three consecutive addresses (the source: "vector3 can be
declared as an array of 3 reals in Fortran"). -/
abbrev Mem (number : Type) := Nat → number

/-- The value of `*v` for `vector3 *v`. -/
def loadVector3 (m : Mem number) (v : Nat) : Vector3 number :=
  ⟨m v, m (v + 1), m (v + 2)⟩

/-- The assignment `*p = w` for `vector3 *p`. -/
def storeVector3 (m : Mem number) (p : Nat) (w : Vector3 number) : Mem number :=
  fun a => if a = p then w.x else if a = p + 1 then w.y else if a = p + 2 then w.z else m a

/-- The assignment `*p = x` for `number *p`. -/
def storeNumber (m : Mem number) (p : Nat) (x : number) : Mem number :=
  fun a => if a = p then x else m a

/-- Source `vector3scale`; the arguments are addresses. -/
def vector3scale (L : Lib number integer boolean list object σ) (s v vscaled : Nat) (m : Mem number) : Mem number :=
  storeVector3 m vscaled (L.vector3_scale (m s) (loadVector3 m v))

/-- Source `vector3plus`. -/
def vector3plus (L : Lib number integer boolean list object σ) (v1 v2 vresult : Nat) (m : Mem number) : Mem number :=
  storeVector3 m vresult (L.vector3_plus (loadVector3 m v1) (loadVector3 m v2))

/-- Source `vector3minus`. -/
def vector3minus (L : Lib number integer boolean list object σ) (v1 v2 vresult : Nat) (m : Mem number) : Mem number :=
  storeVector3 m vresult (L.vector3_minus (loadVector3 m v1) (loadVector3 m v2))

/-- Source `vector3cross`. -/
def vector3cross (L : Lib number integer boolean list object σ) (v1 v2 vresult : Nat) (m : Mem number) : Mem number :=
  storeVector3 m vresult (L.vector3_cross (loadVector3 m v1) (loadVector3 m v2))

/-- Source `vector3dot`. -/
def vector3dot (L : Lib number integer boolean list object σ) (v1 v2 result : Nat) (m : Mem number) : Mem number :=
  storeNumber m result (L.vector3_dot (loadVector3 m v1) (loadVector3 m v2))

/-- Source `vector3norm`. -/
def vector3norm (L : Lib number integer boolean list object σ) (v result : Nat) (m : Mem number) : Mem number :=
  storeNumber m result (L.vector3_norm (loadVector3 m v))

/-! ## External names: `FORTRANIZE` -/

/-- The branches of the `#if` that defines `FORTRANIZE`: upper case (Cray),
lower case (RS/6000, HP-UX), lower case with an underscore (default). -/
inductive Convention where
  | upper
  | lower
  | lowerUnderscore
deriving DecidableEq, Repr

/-- Source `FORTRANIZE(x,X)`: `X`, `x` or `x##_`. -/
def FORTRANIZE (c : Convention) (x X : String) : String :=
  match c with
  | .upper => X
  | .lower => x
  | .lowerUnderscore => x ++ "_"

/-- One wrapper definition of the file: the C routine its body calls and the
two arguments of `FORTRANIZE` in its header, as written in the source. -/
structure Wrapper where
  cname : String
  x : String
  X : String
deriving DecidableEq, Repr

/-- The wrapper definitions of the file, in source order. -/
def wrappers : List Wrapper := [
  ⟨"vector3_scale", "vector3scale", "VECTOR3SCALE"⟩,
  ⟨"vector3_plus", "vector3plus", "VECTOR3PLUS"⟩,
  ⟨"vector3_minus", "vector3minus", "VECTOR3MINUS"⟩,
  ⟨"vector3_cross", "vector3cross", "VECTOR3CROSS"⟩,
  ⟨"vector3_dot", "vector3dot", "VECTOR3DOT"⟩,
  ⟨"vector3_norm", "vector3norm", "VECTOR3DOT"⟩,
  ⟨"ctl_get_number", "ctlgetnumber", "CTLGETNUMBER"⟩,
  ⟨"ctl_get_integer", "ctlgetinteger", "CTLGETINTEGER"⟩,
  ⟨"ctl_get_boolean", "ctlgetboolean", "CTLGETBOOLEAN"⟩,
  ⟨"ctl_get_list", "ctlgetlist", "CTLGETLIST"⟩,
  ⟨"ctl_get_object", "ctlgetobject", "CTLGETOBJECT"⟩,
  ⟨"ctl_get_vector3", "ctlgetvector3", "CTLGETVECTOR3"⟩,
  ⟨"ctl_get_string", "ctlgetstring", "CTLGETSTRING"⟩,
  ⟨"ctl_set_number", "ctlsetnumber", "CTLSETNUMBER"⟩,
  ⟨"ctl_set_integer", "ctlsetinteger", "CTLSETINTEGER"⟩,
  ⟨"ctl_set_boolean", "ctlsetboolean", "CTLSETBOOLEAN"⟩,
  ⟨"ctl_set_list", "ctlsetlist", "CTLSETLIST"⟩,
  ⟨"ctl_set_object", "ctlsetobject", "CTLSETOBJECT"⟩,
  ⟨"ctl_set_vector3", "ctlsetvector3", "CTLSETVECTOR3"⟩,
  ⟨"ctl_set_string", "ctlsetstring", "CTLSETSTRING"⟩,
  ⟨"list_length", "listlength", "LISTLENGTH"⟩,
  ⟨"number_list_ref", "numberlistref", "NUMBERLISTREF"⟩,
  ⟨"integer_list_ref", "integerlistref", "INTEGERLISTREF"⟩,
  ⟨"boolean_list_ref", "booleanlistref", "BOOLEANLISTREF"⟩,
  ⟨"vector3_list_ref", "vector3listref", "VECTOR3LISTREF"⟩,
  ⟨"list_list_ref", "listlistref", "LISTLISTREF"⟩,
  ⟨"object_list_ref", "objectlistref", "OBJECTLISTREF"⟩,
  ⟨"string_list_ref", "stringlistref", "STRINGLISTREF"⟩,
  ⟨"make_number_list", "makenumberlist", "MAKENUMBERLIST"⟩,
  ⟨"make_integer_list", "makeintegerlist", "MAKEINTEGERLIST"⟩,
  ⟨"make_boolean_list", "makebooleanlist", "MAKEBOOLEANLIST"⟩,
  ⟨"make_vector3_list", "makevector3list", "MAKEVECTOR3LIST"⟩,
  ⟨"make_list_list", "makelistlist", "MAKELISTLIST"⟩,
  ⟨"make_object_list", "makeobjectlist", "MAKEOBJECTLIST"⟩,
  ⟨"object_is_member", "objectismember", "OBJECTISMEMBER"⟩,
  ⟨"number_object_property", "numberobjectproperty", "NUMBEROBJECTPROPERTY"⟩,
  ⟨"integer_object_property", "integerobjectproperty", "INTEGEROBJECTPROPERTY"⟩,
  ⟨"boolean_object_property", "booleanobjectproperty", "BOOLEANOBJECTPROPERTY"⟩,
  ⟨"vector3_object_property", "vector3objectproperty", "VECTOR3OBJECTPROPERTY"⟩,
  ⟨"list_object_property", "listobjectproperty", "LISTOBJECTPROPERTY"⟩,
  ⟨"object_object_property", "objectobjectproperty", "OBJECTOBJECTPROPERTY"⟩,
  ⟨"string_object_property", "stringobjectproperty", "STRINGOBJECTPROPERTY"⟩]

/-- The external symbol of a wrapper under a convention, as the source
produces it. -/
def externalName (c : Convention) (w : Wrapper) : String :=
  FORTRANIZE c w.x w.X

/-- The name the specification describes: the C function name with its
underscores removed, then case-mangled for the convention. -/
def specName (c : Convention) (cname : String) : String :=
  let bare := cname.toList.filter (fun ch => ch != '_')
  match c with
  | .upper => String.mk (bare.map Char.toUpper)
  | .lower => String.mk (bare.map Char.toLower)
  | .lowerUnderscore => String.mk (bare.map Char.toLower ++ ['_'])

/-! ## The wrapped library, as the specification describes it -/

/-- Modelled from the spec: the values of the wrapped library, which is not
part of the sources ("the primitive/opaque handle types defined by the wrapped
library (number, integer, boolean, vector3, list, object, string)").  A list
is the sequence of its items, an object stays uninterpreted. -/
inductive Value (number integer boolean object : Type) where
  | number (x : number)
  | integer (i : integer)
  | boolean (b : boolean)
  | vector3 (v : Vector3 number)
  | string (s : List Byte)
  | list (xs : List (Value number integer boolean object))
  | object (o : object)

/-- Modelled from the spec: the interpreter state of the missing library, a
store from identifier strings to typed values. -/
abbrev Store (number integer boolean object : Type) :=
  List Byte → Option (Value number integer boolean object)

/-- Modelled from the spec: the read of the missing `ctl_get_T`, the value
the store binds to the identifier string. -/
def Store.read (st : Store number integer boolean object) (identifier : List Byte) :
    Option (Value number integer boolean object) := do
  let name ← cstring identifier
  st name

/-- Modelled from the spec: the write of the missing `ctl_set_T`, the store
that binds the identifier string to the value. -/
def Store.write (st : Store number integer boolean object) (identifier : List Byte)
    (v : Value number integer boolean object) : Option (Store number integer boolean object) := do
  let name ← cstring identifier
  pure (fun k => if k = name then some v else st k)

/-- Modelled from the spec: the item of the missing `T_list_ref`, indexing
into the sequence with the index taken as it is (the first item has index 0). -/
def Value.item (l : List (Value number integer boolean object)) (index : Int) : Option (Value number integer boolean object) :=
  if 0 ≤ index then l[index.toNat]? else none

/-- Modelled from the spec: the items the missing `make_T_list` reads, the
first `num_items` elements of the array. -/
def takeItems {α : Type} (num_items : Int) (items : List α) : Option (List α) :=
  if 0 ≤ num_items ∧ num_items.toNat ≤ items.length then some (items.take num_items.toNat)
  else none

/-- Modelled from the spec: the `number` a value of the missing library holds. -/
def Value.number? : Value number integer boolean object → Option (number)
  | .number a => some a
  | _ => none

/-- Modelled from the spec: the `integer` a value of the missing library holds. -/
def Value.integer? : Value number integer boolean object → Option (integer)
  | .integer a => some a
  | _ => none

/-- Modelled from the spec: the `boolean` a value of the missing library holds. -/
def Value.boolean? : Value number integer boolean object → Option (boolean)
  | .boolean a => some a
  | _ => none

/-- Modelled from the spec: the `vector3` a value of the missing library holds. -/
def Value.vector3? : Value number integer boolean object → Option (Vector3 number)
  | .vector3 a => some a
  | _ => none

/-- Modelled from the spec: the `list` a value of the missing library holds. -/
def Value.list? : Value number integer boolean object → Option (List (Value number integer boolean object))
  | .list a => some a
  | _ => none

/-- Modelled from the spec: the `object` a value of the missing library holds. -/
def Value.object? : Value number integer boolean object → Option (object)
  | .object a => some a
  | _ => none

/-- Modelled from the spec: the `string` a value of the missing library holds. -/
def Value.string? : Value number integer boolean object → Option (List Byte)
  | .string a => some a
  | _ => none

/-- Modelled from the spec: the missing library for the variable and list
functions: `ctl_set_T` writes the store, `ctl_get_T` reads it, `make_T_list`
builds the sequence of the items, `T_list_ref` indexes into it and
`list_length` is its length.  A returned string is a fresh zero-terminated
block.  The functions the specification says nothing about are those of `B`. -/
def storeLib
    (B : Lib number integer boolean (List (Value number integer boolean object)) object (Store number integer boolean object)) :
    Lib number integer boolean (List (Value number integer boolean object)) object (Store number integer boolean object) :=
  { B with
    ctl_get_number := fun st s => (st.read s).bind Value.number?
    ctl_get_integer := fun st s => (st.read s).bind Value.integer?
    ctl_get_boolean := fun st s => (st.read s).bind Value.boolean?
    ctl_get_vector3 := fun st s => (st.read s).bind Value.vector3?
    ctl_get_list := fun st s => (st.read s).bind Value.list?
    ctl_get_object := fun st s => (st.read s).bind Value.object?
    ctl_get_string := fun st s => ((st.read s).bind Value.string?).map (fun r => r ++ [0])
    ctl_set_number := fun st s a => st.write s (.number a)
    ctl_set_integer := fun st s a => st.write s (.integer a)
    ctl_set_boolean := fun st s a => st.write s (.boolean a)
    ctl_set_vector3 := fun st s a => st.write s (.vector3 a)
    ctl_set_list := fun st s a => st.write s (.list a)
    ctl_set_object := fun st s a => st.write s (.object a)
    ctl_set_string := fun st s v => (cstring v).bind (fun r => st.write s (.string r))
    list_length := fun l => some (l.length : Int)
    number_list_ref := fun l i => (Value.item l i).bind Value.number?
    integer_list_ref := fun l i => (Value.item l i).bind Value.integer?
    boolean_list_ref := fun l i => (Value.item l i).bind Value.boolean?
    vector3_list_ref := fun l i => (Value.item l i).bind Value.vector3?
    list_list_ref := fun l i => (Value.item l i).bind Value.list?
    object_list_ref := fun l i => (Value.item l i).bind Value.object?
    string_list_ref := fun l i => ((Value.item l i).bind Value.string?).map (fun r => r ++ [0])
    make_number_list := fun n items => (takeItems n items).map (fun xs => xs.map Value.number)
    make_integer_list := fun n items => (takeItems n items).map (fun xs => xs.map Value.integer)
    make_boolean_list := fun n items => (takeItems n items).map (fun xs => xs.map Value.boolean)
    make_vector3_list := fun n items => (takeItems n items).map (fun xs => xs.map Value.vector3)
    make_list_list := fun n items => (takeItems n items).map (fun xs => xs.map Value.list)
    make_object_list := fun n items => (takeItems n items).map (fun xs => xs.map Value.object) }

/-! ## Libraries to evaluate the wrappers on -/

/-- A library every fallible call of which fails; the vector functions return
a component of an argument. -/
def Lib.failing : Lib number integer boolean list object σ where
  vector3_scale := fun _ v => v
  vector3_plus := fun v _ => v
  vector3_minus := fun v _ => v
  vector3_cross := fun v _ => v
  vector3_dot := fun v _ => v.x
  vector3_norm := fun v => v.x
  ctl_get_number := fun _ _ => none
  ctl_get_integer := fun _ _ => none
  ctl_get_boolean := fun _ _ => none
  ctl_get_list := fun _ _ => none
  ctl_get_object := fun _ _ => none
  ctl_get_vector3 := fun _ _ => none
  ctl_get_string := fun _ _ => none
  ctl_set_number := fun _ _ _ => none
  ctl_set_integer := fun _ _ _ => none
  ctl_set_boolean := fun _ _ _ => none
  ctl_set_list := fun _ _ _ => none
  ctl_set_object := fun _ _ _ => none
  ctl_set_vector3 := fun _ _ _ => none
  ctl_set_string := fun _ _ _ => none
  list_length := fun _ => none
  number_list_ref := fun _ _ => none
  integer_list_ref := fun _ _ => none
  boolean_list_ref := fun _ _ => none
  vector3_list_ref := fun _ _ => none
  list_list_ref := fun _ _ => none
  object_list_ref := fun _ _ => none
  string_list_ref := fun _ _ => none
  make_number_list := fun _ _ => none
  make_integer_list := fun _ _ => none
  make_boolean_list := fun _ _ => none
  make_vector3_list := fun _ _ => none
  make_list_list := fun _ _ => none
  make_object_list := fun _ _ => none
  object_is_member := fun _ _ => none
  number_object_property := fun _ _ => none
  integer_object_property := fun _ _ => none
  boolean_object_property := fun _ _ => none
  vector3_object_property := fun _ _ => none
  list_object_property := fun _ _ => none
  object_object_property := fun _ _ => none
  string_object_property := fun _ _ => none

/-- A library whose three string functions return the block `r`. -/
def Lib.returning (r : List Byte) : Lib Unit Unit Unit Unit Unit Unit :=
  { (Lib.failing : Lib Unit Unit Unit Unit Unit Unit) with
    ctl_get_string := fun _ _ => some r
    string_list_ref := fun _ _ => some r
    string_object_property := fun _ _ => some r }

/-- The library of the specification over integers for numbers, with an
empty base, to evaluate the wrappers on. -/
def sampleLib : Lib Int Int Bool (List (Value Int Int Bool Nat)) Nat (Store Int Int Bool Nat) :=
  storeLib Lib.failing

/-- The store that binds no identifier. -/
def Store.empty : Store Int Int Bool Nat :=
  fun _ => none

/-! ## Lemmas on `strlen`, `strncpy` -/

theorem padNul_eq (dest : List Byte) (n : Nat) (h : n ≤ dest.length) :
    padNul dest n = some (List.replicate n 0 ++ dest.drop n) := by
  induction n generalizing dest with
  | zero => simp [padNul]
  | succ n ih =>
    cases dest with
    | nil => simp at h
    | cons d ds =>
      have h1 : n ≤ ds.length := by simpa using h
      simp [padNul, ih ds h1, List.replicate_succ]

theorem strlen_lt {r : List Byte} {k : Nat} (h : strlen r = some k) : k < r.length := by
  induction r generalizing k with
  | nil => simp [strlen] at h
  | cons c cs ih =>
    by_cases hc : c = 0
    · simp [strlen, hc] at h
      subst h
      simp
    · simp only [strlen, hc, if_false, Option.map_eq_some'] at h
      obtain ⟨j, hj, rfl⟩ := h
      have := ih hj
      simp
      omega

theorem strlen_take_ne {r : List Byte} {k : Nat} (h : strlen r = some k) :
    ∀ c ∈ r.take k, c ≠ 0 := by
  induction r generalizing k with
  | nil => simp [strlen] at h
  | cons c cs ih =>
    by_cases hc : c = 0
    · simp [strlen, hc] at h
      subst h
      simp
    · simp only [strlen, hc, if_false, Option.map_eq_some'] at h
      obtain ⟨j, hj, rfl⟩ := h
      intro b hb
      simp only [List.take_succ_cons, List.mem_cons] at hb
      rcases hb with rfl | hb
      · exact hc
      · exact ih hj b hb

theorem strlen_getElem {r : List Byte} {k : Nat} (h : strlen r = some k) :
    r[k]? = some 0 := by
  induction r generalizing k with
  | nil => simp [strlen] at h
  | cons c cs ih =>
    by_cases hc : c = 0
    · simp [strlen, hc] at h
      subst h
      simp [hc]
    · simp only [strlen, hc, if_false, Option.map_eq_some'] at h
      obtain ⟨j, hj, rfl⟩ := h
      simpa using ih hj

theorem strlen_append_zero (xs : List Byte) (h : ∀ c ∈ xs, c ≠ 0) :
    strlen (xs ++ [0]) = some xs.length := by
  induction xs with
  | nil => simp [strlen]
  | cons c cs ih =>
    have hc : c ≠ 0 := h c (by simp)
    simp [strlen, hc, ih (fun d hd => h d (by simp [hd]))]

/-- What `strncpy` leaves in `dest` when `src` is a string of length `k` and
`dest` holds at least `n` bytes. -/
theorem strncpy_eq (dest src : List Byte) (n k : Nat)
    (hk : strlen src = some k) (hn : n ≤ dest.length) :
    strncpy dest src n
      = some (src.take (min n k) ++ List.replicate (n - k) 0 ++ dest.drop n) := by
  induction n generalizing dest src k with
  | zero => simp [strncpy]
  | succ n ih =>
    cases dest with
    | nil => simp at hn
    | cons d ds =>
      have h1 : n ≤ ds.length := by simpa using hn
      cases src with
      | nil => simp [strlen] at hk
      | cons c cs =>
        by_cases hc : c = 0
        · simp [strlen, hc] at hk
          subst hk
          simp [strncpy, hc, padNul_eq ds n h1, List.replicate_succ]
        · simp only [strlen, hc, if_false, Option.map_eq_some'] at hk
          obtain ⟨j, hj, rfl⟩ := hk
          simp [strncpy, hc, ih ds cs j hj h1, Nat.succ_min_succ]

theorem storeNul_eq {s : List Byte} {i : Nat} (h : i < s.length) :
    storeNul s i = some (s.set i 0) := by
  simp [storeNul, h]

/-- The copy and the length update that end the three string wrappers. -/
theorem ctlgetstring_eq (L : Lib number integer boolean list object σ) (st : σ)
    (identifier : List Byte) (length : Nat) (result : List Byte) (N : Nat)
    (r : List Byte) (k : Nat) (hid : length < identifier.length)
    (hr : L.ctl_get_string st (identifier.set length 0) = some r)
    (hk : strlen r = some k) (hcap : N ≤ result.length) :
    ctlgetstring L st identifier length result N
      = some (identifier.set length 0,
          r.take (min N k) ++ List.replicate (N - k) 0 ++ result.drop N,
          if N < k then intOfSize k else (N : Int)) := by
  simp [ctlgetstring, fcp2ccp, storeNul_eq hid, hr, strncpy_eq _ _ _ _ hk hcap, hk]

theorem stringlistref_eq (L : Lib number integer boolean list object σ) (l : list) (index : Int)
    (value : List Byte) (N : Nat) (v : List Byte) (k : Nat)
    (hr : L.string_list_ref l index = some v)
    (hk : strlen v = some k) (hcap : N ≤ value.length) :
    stringlistref L l index value N
      = some (v.take (min N k) ++ List.replicate (N - k) 0 ++ value.drop N,
          if N < k then intOfSize k else (N : Int)) := by
  simp [stringlistref, fcp2ccp, hr, strncpy_eq _ _ _ _ hk hcap, hk]

theorem stringobjectproperty_eq (L : Lib number integer boolean list object σ) (o : object)
    (property_name : List Byte) (length : Nat) (result : List Byte) (N : Nat)
    (r : List Byte) (k : Nat) (hid : length < property_name.length)
    (hr : L.string_object_property o (property_name.set length 0) = some r)
    (hk : strlen r = some k) (hcap : N ≤ result.length) :
    stringobjectproperty L o property_name length result N
      = some (property_name.set length 0,
          r.take (min N k) ++ List.replicate (N - k) 0 ++ result.drop N,
          if N < k then intOfSize k else (N : Int)) := by
  simp [stringobjectproperty, fcp2ccp, storeNul_eq hid, hr, strncpy_eq _ _ _ _ hk hcap, hk]

/-! ## Lemmas on the copied buffer -/

theorem copied_length (r result : List Byte) (N k : Nat)
    (hk : k < r.length) (hcap : N ≤ result.length) :
    (r.take (min N k) ++ List.replicate (N - k) 0 ++ result.drop N).length
      = result.length := by
  simp only [List.length_append, List.length_take, List.length_replicate, List.length_drop]
  omega

theorem copied_getElem_ge (r result : List Byte) (N k i : Nat)
    (hk : k < r.length) (hi : N ≤ i) :
    (r.take (min N k) ++ List.replicate (N - k) 0 ++ result.drop N)[i]? = result[i]? := by
  have hlen : (r.take (min N k) ++ List.replicate (N - k) 0).length = N := by
    simp only [List.length_append, List.length_take, List.length_replicate]
    omega
  rw [List.getElem?_append_right (by omega), hlen, List.getElem?_drop]
  congr 1
  omega

theorem copied_take_of_le (r result : List Byte) (N k : Nat)
    (hk : k < r.length) (hN : N ≤ k) :
    (r.take (min N k) ++ List.replicate (N - k) 0 ++ result.drop N).take N = r.take N := by
  have h1 : min N k = N := by omega
  have h2 : N - k = 0 := by omega
  have h3 : (r.take N).length = N := by
    simp only [List.length_take]
    omega
  rw [h1, h2]
  simp only [List.replicate_zero, List.append_nil]
  rw [List.take_append_eq_append_take, h3]
  simp

theorem copied_take_of_ge (r result : List Byte) (N k : Nat)
    (hk : k < r.length) (hN : k ≤ N) :
    (r.take (min N k) ++ List.replicate (N - k) 0 ++ result.drop N).take k = r.take k := by
  have h1 : min N k = k := by omega
  have h3 : (r.take k).length = k := by
    simp only [List.length_take]
    omega
  rw [h1, List.append_assoc, List.take_append_eq_append_take, h3]
  simp

theorem copied_getElem_pad (r result : List Byte) (N k i : Nat)
    (hk : k < r.length) (h1 : k ≤ i) (h2 : i < N) :
    (r.take (min N k) ++ List.replicate (N - k) 0 ++ result.drop N)[i]? = some 0 := by
  have h3 : (r.take (min N k)).length = k := by
    simp only [List.length_take]
    omega
  rw [List.append_assoc, List.getElem?_append_right (by omega), h3,
    List.getElem?_append_left (by simp; omega)]
  rw [List.getElem?_replicate, if_pos (by omega)]

/-! ## The string-returning wrappers -/

theorem intOfSize_of_lt {k : Nat} (h : k < 2 ^ 31) : intOfSize k = (k : Int) := by
  have h1 : (k + 2 ^ 31) % 2 ^ 32 = k + 2 ^ 31 := Nat.mod_eq_of_lt (by omega)
  rw [intOfSize, h1]
  push_cast
  omega

theorem strlen_replicate (n : Nat) : strlen (List.replicate n 97 ++ [0]) = some n := by
  have h : ∀ c ∈ List.replicate n (97 : Byte), c ≠ 0 := by
    intro c hc
    rw [List.eq_of_mem_replicate hc]
    decide
  rw [strlen_append_zero _ h, List.length_replicate]

/-- The length the string wrappers store for a string of `n` bytes "a" that
does not fit the capacity. -/
theorem returning_replicate_eq (n N : Nat) (name : List Byte) (len : Nat)
    (result : List Byte) (hname : len < name.length) (hcap : N ≤ result.length)
    (hN : N < n) :
    (∃ res, ctlgetstring (Lib.returning (List.replicate n 97 ++ [0])) () name len result N
        = some (name.set len 0, res, intOfSize n)) ∧
    (∃ res, stringlistref (Lib.returning (List.replicate n 97 ++ [0])) () 0 result N
        = some (res, intOfSize n)) ∧
    (∃ res, stringobjectproperty (Lib.returning (List.replicate n 97 ++ [0])) () name len
          result N = some (name.set len 0, res, intOfSize n)) := by
  have hk := strlen_replicate n
  have e1 := ctlgetstring_eq (Lib.returning (List.replicate n 97 ++ [0])) () name len
    result N _ n hname rfl hk hcap
  have e2 := stringlistref_eq (Lib.returning (List.replicate n 97 ++ [0])) () 0
    result N _ n rfl hk hcap
  have e3 := stringobjectproperty_eq (Lib.returning (List.replicate n 97 ++ [0])) () name len
    result N _ n hname rfl hk hcap
  rw [if_pos hN] at e1 e2 e3
  exact ⟨⟨_, e1⟩, ⟨_, e2⟩, ⟨_, e3⟩⟩

/-- C1 fails as stated: for a string of length 2^31 and capacity 2, each
wrapper returns with the length parameter -2147483648, not the length of the
string. -/
theorem string_wrappers_truncated_length_wraps :
    strlen (List.replicate 2147483648 97 ++ [0]) = some 2147483648 ∧
    (∃ res, ctlgetstring (Lib.returning (List.replicate 2147483648 97 ++ [0])) ()
        [120, 32] 1 [1, 2, 3] 2 = some ([120, 0], res, -2147483648)) ∧
    (∃ res, stringlistref (Lib.returning (List.replicate 2147483648 97 ++ [0])) () 0
        [1, 2, 3] 2 = some (res, -2147483648)) ∧
    (∃ res, stringobjectproperty (Lib.returning (List.replicate 2147483648 97 ++ [0])) ()
        [120, 32] 1 [1, 2, 3] 2 = some ([120, 0], res, -2147483648)) := by
  have h := returning_replicate_eq 2147483648 2 [120, 32] 1 [1, 2, 3]
    (by decide) (by decide) (by decide)
  have e : intOfSize 2147483648 = -2147483648 := by decide
  rw [e] at h
  exact ⟨strlen_replicate 2147483648, h⟩

/-- C1, amended: for `ctlgetstring`, `stringlistref` and
`stringobjectproperty`, when the library returns a string `r` of a length `k`
that fits an `int` (`k < 2^31`) and the capacity `N` passed in is smaller than
`k`, the call returns with the first `N` bytes of the result buffer equal to
the first `N` bytes of `r` and with the length parameter set to `k`. -/
theorem string_wrappers_truncated_copy (L : Lib number integer boolean list object σ) (st : σ) (o : object) (l : list) (index : Int)
    (name : List Byte) (length : Nat) (result : List Byte) (N : Nat) (r : List Byte) (k : Nat)
    (hname : length < name.length) (hcap : N ≤ result.length)
    (hk : strlen r = some k) (hN : N < k) (hint : k < 2 ^ 31) :
    (L.ctl_get_string st (name.set length 0) = some r →
      ∃ res, ctlgetstring L st name length result N
          = some (name.set length 0, res, (k : Int))
        ∧ res.take N = r.take N) ∧
    (L.string_list_ref l index = some r →
      ∃ res, stringlistref L l index result N = some (res, (k : Int))
        ∧ res.take N = r.take N) ∧
    (L.string_object_property o (name.set length 0) = some r →
      ∃ res, stringobjectproperty L o name length result N
          = some (name.set length 0, res, (k : Int))
        ∧ res.take N = r.take N) := by
  have hlt := strlen_lt hk
  have hcopy := copied_take_of_le r result N k hlt (Nat.le_of_lt hN)
  have hw := intOfSize_of_lt hint
  refine ⟨fun hr => ⟨_, ?_, hcopy⟩, fun hr => ⟨_, ?_, hcopy⟩, fun hr => ⟨_, ?_, hcopy⟩⟩
  · rw [ctlgetstring_eq L st name length result N r k hname hr hk hcap, if_pos hN, hw]
  · rw [stringlistref_eq L l index result N r k hr hk hcap, if_pos hN, hw]
  · rw [stringobjectproperty_eq L o name length result N r k hname hr hk hcap, if_pos hN, hw]

/-- C1, amended, at a concrete call: the string "hi!" into a buffer of
capacity 2. -/
theorem string_wrappers_truncated_copy_witness :
    (∃ res, ctlgetstring (Lib.returning [104, 105, 33, 0]) () [120, 32] 1 [1, 2, 3] 2
        = some ([120, 0], res, 3) ∧ res.take 2 = [104, 105]) ∧
    (∃ res, stringlistref (Lib.returning [104, 105, 33, 0]) () 0 [1, 2, 3] 2
        = some (res, 3) ∧ res.take 2 = [104, 105]) ∧
    (∃ res, stringobjectproperty (Lib.returning [104, 105, 33, 0]) () [120, 32] 1 [1, 2, 3] 2
        = some ([120, 0], res, 3) ∧ res.take 2 = [104, 105]) :=
  have h := string_wrappers_truncated_copy (Lib.returning [104, 105, 33, 0]) () () () 0
    [120, 32] 1 [1, 2, 3] 2 [104, 105, 33, 0] 3 (by decide) (by decide) (by decide)
    (by decide) (by decide)
  ⟨h.1 rfl, h.2.1 rfl, h.2.2 rfl⟩

/-- Evaluation for C2: the library returns the string "ab" of length 2 and
the capacity passed in is 5; each wrapper returns with the length parameter
still 5, not 2. -/
theorem string_wrappers_short_string_length :
    strlen [97, 98, 0] = some 2 ∧
    ctlgetstring (Lib.returning [97, 98, 0]) () [120, 32] 1 [1, 2, 3, 4, 5] 5
      = some ([120, 0], [97, 98, 0, 0, 0], 5) ∧
    stringlistref (Lib.returning [97, 98, 0]) () 0 [1, 2, 3, 4, 5] 5
      = some ([97, 98, 0, 0, 0], 5) ∧
    stringobjectproperty (Lib.returning [97, 98, 0]) () [120, 32] 1 [1, 2, 3, 4, 5] 5
      = some ([120, 0], [97, 98, 0, 0, 0], 5) := by
  decide

/-- C3 fails as stated: for a string of length 2^32 + 5 and capacity 10 the
string is truncated, yet each wrapper returns with the length parameter 5,
which does not exceed the capacity. -/
theorem string_wrappers_truncation_not_signalled :
    strlen (List.replicate 4294967301 97 ++ [0]) = some 4294967301 ∧
    (10 : Nat) < 4294967301 ∧ ¬ ((10 : Int) < 5) ∧
    (∃ res, ctlgetstring (Lib.returning (List.replicate 4294967301 97 ++ [0])) ()
        [120, 32] 1 [1, 2, 3, 4, 5, 6, 7, 8, 9, 10] 10 = some ([120, 0], res, 5)) ∧
    (∃ res, stringlistref (Lib.returning (List.replicate 4294967301 97 ++ [0])) () 0
        [1, 2, 3, 4, 5, 6, 7, 8, 9, 10] 10 = some (res, 5)) ∧
    (∃ res, stringobjectproperty (Lib.returning (List.replicate 4294967301 97 ++ [0])) ()
        [120, 32] 1 [1, 2, 3, 4, 5, 6, 7, 8, 9, 10] 10 = some ([120, 0], res, 5)) := by
  have h := returning_replicate_eq 4294967301 10 [120, 32] 1 [1, 2, 3, 4, 5, 6, 7, 8, 9, 10]
    (by decide) (by decide) (by decide)
  have e : intOfSize 4294967301 = 5 := by decide
  rw [e] at h
  exact ⟨strlen_replicate 4294967301, by decide, by decide, h⟩

/-- C3, amended: for each string-returning wrapper, when the library returns
a string of a length `k` that fits an `int` (`k < 2^31`), the length parameter
on return exceeds the capacity `N` passed in exactly when `k > N`, and does
not exceed `N` when `k ≤ N`. -/
theorem string_wrappers_length_signals_truncation (L : Lib number integer boolean list object σ) (st : σ) (o : object) (l : list) (index : Int)
    (name : List Byte) (length : Nat) (result : List Byte) (N : Nat) (r : List Byte) (k : Nat)
    (hname : length < name.length) (hcap : N ≤ result.length) (hk : strlen r = some k)
    (hint : k < 2 ^ 31) :
    (L.ctl_get_string st (name.set length 0) = some r →
      ∃ res n, ctlgetstring L st name length result N = some (name.set length 0, res, n)
        ∧ ((N : Int) < n ↔ N < k) ∧ (k ≤ N → n ≤ (N : Int))) ∧
    (L.string_list_ref l index = some r →
      ∃ res n, stringlistref L l index result N = some (res, n)
        ∧ ((N : Int) < n ↔ N < k) ∧ (k ≤ N → n ≤ (N : Int))) ∧
    (L.string_object_property o (name.set length 0) = some r →
      ∃ res n, stringobjectproperty L o name length result N
          = some (name.set length 0, res, n)
        ∧ ((N : Int) < n ↔ N < k) ∧ (k ≤ N → n ≤ (N : Int))) := by
  have hw := intOfSize_of_lt hint
  have hn : ((N : Int) < (if N < k then intOfSize k else (N : Int)) ↔ N < k)
      ∧ (k ≤ N → (if N < k then intOfSize k else (N : Int)) ≤ (N : Int)) := by
    rw [hw]
    split <;> constructor <;> omega
  refine ⟨fun hr => ?_, fun hr => ?_, fun hr => ?_⟩
  · exact ⟨_, _, ctlgetstring_eq L st name length result N r k hname hr hk hcap, hn⟩
  · exact ⟨_, _, stringlistref_eq L l index result N r k hr hk hcap, hn⟩
  · exact ⟨_, _, stringobjectproperty_eq L o name length result N r k hname hr hk hcap, hn⟩

/-- C3, amended, at a concrete call: "hi!" with capacity 2. -/
theorem string_wrappers_length_signals_truncation_witness :
    (∃ res n, ctlgetstring (Lib.returning [104, 105, 33, 0]) () [120, 32] 1 [1, 2, 3] 2
        = some ([120, 0], res, n) ∧ (((2 : Nat) : Int) < n ↔ 2 < 3) ∧ (3 ≤ 2 → n ≤ ((2 : Nat) : Int))) ∧
    (∃ res n, stringlistref (Lib.returning [104, 105, 33, 0]) () 0 [1, 2, 3] 2
        = some (res, n) ∧ (((2 : Nat) : Int) < n ↔ 2 < 3) ∧ (3 ≤ 2 → n ≤ ((2 : Nat) : Int))) ∧
    (∃ res n, stringobjectproperty (Lib.returning [104, 105, 33, 0]) () [120, 32] 1 [1, 2, 3] 2
        = some ([120, 0], res, n) ∧ (((2 : Nat) : Int) < n ↔ 2 < 3) ∧ (3 ≤ 2 → n ≤ ((2 : Nat) : Int))) :=
  have h := string_wrappers_length_signals_truncation (Lib.returning [104, 105, 33, 0]) () () () 0
    [120, 32] 1 [1, 2, 3] 2 [104, 105, 33, 0] 3 (by decide) (by decide) (by decide) (by decide)
  ⟨h.1 rfl, h.2.1 rfl, h.2.2 rfl⟩

/-- C4: for each string-returning wrapper, whatever the length `k` of the
string the library returns, the result buffer keeps its size and every byte of
it at an index `i ≥ N` is the same after the call as before it. -/
theorem string_wrappers_frame (L : Lib number integer boolean list object σ) (st : σ) (o : object) (l : list) (index : Int)
    (name : List Byte) (length : Nat) (result : List Byte) (N : Nat) (r : List Byte) (k : Nat)
    (hname : length < name.length) (hcap : N ≤ result.length) (hk : strlen r = some k) :
    (L.ctl_get_string st (name.set length 0) = some r →
      ∃ res n, ctlgetstring L st name length result N = some (name.set length 0, res, n)
        ∧ res.length = result.length ∧ ∀ i, N ≤ i → res[i]? = result[i]?) ∧
    (L.string_list_ref l index = some r →
      ∃ res n, stringlistref L l index result N = some (res, n)
        ∧ res.length = result.length ∧ ∀ i, N ≤ i → res[i]? = result[i]?) ∧
    (L.string_object_property o (name.set length 0) = some r →
      ∃ res n, stringobjectproperty L o name length result N
          = some (name.set length 0, res, n)
        ∧ res.length = result.length ∧ ∀ i, N ≤ i → res[i]? = result[i]?) := by
  have hlt := strlen_lt hk
  have h1 := copied_length r result N k hlt hcap
  have h2 := fun i => copied_getElem_ge r result N k i hlt
  refine ⟨fun hr => ?_, fun hr => ?_, fun hr => ?_⟩
  · exact ⟨_, _, ctlgetstring_eq L st name length result N r k hname hr hk hcap, h1, h2⟩
  · exact ⟨_, _, stringlistref_eq L l index result N r k hr hk hcap, h1, h2⟩
  · exact ⟨_, _, stringobjectproperty_eq L o name length result N r k hname hr hk hcap, h1, h2⟩

/-- C4 at a concrete call: "hi!" with capacity 2 into a buffer of 4 bytes. -/
theorem string_wrappers_frame_witness :
    (∃ res n, ctlgetstring (Lib.returning [104, 105, 33, 0]) () [120, 32] 1 [1, 2, 3, 4] 2
        = some ([120, 0], res, n)
        ∧ res.length = 4 ∧ ∀ i, 2 ≤ i → res[i]? = [1, 2, 3, 4][i]?) ∧
    (∃ res n, stringlistref (Lib.returning [104, 105, 33, 0]) () 0 [1, 2, 3, 4] 2
        = some (res, n)
        ∧ res.length = 4 ∧ ∀ i, 2 ≤ i → res[i]? = [1, 2, 3, 4][i]?) ∧
    (∃ res n, stringobjectproperty (Lib.returning [104, 105, 33, 0]) () [120, 32] 1
          [1, 2, 3, 4] 2 = some ([120, 0], res, n)
        ∧ res.length = 4 ∧ ∀ i, 2 ≤ i → res[i]? = [1, 2, 3, 4][i]?) :=
  have h := string_wrappers_frame (Lib.returning [104, 105, 33, 0]) () () () 0
    [120, 32] 1 [1, 2, 3, 4] 2 [104, 105, 33, 0] 3 (by decide) (by decide) (by decide)
  ⟨h.1 rfl, h.2.1 rfl, h.2.2 rfl⟩

/-- C10: for each string-returning wrapper, when the library returns a string
`r` of length `k`: if `k ≤ N`, the result buffer holds the `k` bytes of `r` at
indices `0..k-1` and zero bytes at indices `k..N-1`, and the length parameter
is still `N`; if `N ≤ k`, none of the first `N` bytes of the result buffer is
zero. -/
theorem string_wrappers_padding (L : Lib number integer boolean list object σ) (st : σ) (o : object) (l : list) (index : Int)
    (name : List Byte) (length : Nat) (result : List Byte) (N : Nat) (r : List Byte) (k : Nat)
    (hname : length < name.length) (hcap : N ≤ result.length) (hk : strlen r = some k) :
    (L.ctl_get_string st (name.set length 0) = some r →
      (k ≤ N → ∃ res, ctlgetstring L st name length result N = some (name.set length 0, res, (N : Int))
        ∧ res.take k = r.take k ∧ ∀ i, k ≤ i → i < N → res[i]? = some 0) ∧
      (N ≤ k → ∃ res n, ctlgetstring L st name length result N = some (name.set length 0, res, n)
        ∧ ∀ c ∈ res.take N, c ≠ 0)) ∧
    (L.string_list_ref l index = some r →
      (k ≤ N → ∃ res, stringlistref L l index result N = some (res, (N : Int))
        ∧ res.take k = r.take k ∧ ∀ i, k ≤ i → i < N → res[i]? = some 0) ∧
      (N ≤ k → ∃ res n, stringlistref L l index result N = some (res, n)
        ∧ ∀ c ∈ res.take N, c ≠ 0)) ∧
    (L.string_object_property o (name.set length 0) = some r →
      (k ≤ N → ∃ res, stringobjectproperty L o name length result N = some (name.set length 0, res, (N : Int))
        ∧ res.take k = r.take k ∧ ∀ i, k ≤ i → i < N → res[i]? = some 0) ∧
      (N ≤ k → ∃ res n, stringobjectproperty L o name length result N = some (name.set length 0, res, n)
        ∧ ∀ c ∈ res.take N, c ≠ 0)) := by
  have hlt := strlen_lt hk
  have e1 := fun hr => ctlgetstring_eq L st name length result N r k hname hr hk hcap
  have e2 := fun hr => stringlistref_eq L l index result N r k hr hk hcap
  have e3 := fun hr => stringobjectproperty_eq L o name length result N r k hname hr hk hcap
  have hA : k ≤ N → (if N < k then intOfSize k else (N : Int)) = (N : Int) :=
    fun h => if_neg (by omega)
  have hB := fun h => copied_take_of_ge r result N k hlt h
  have hC := fun (_ : k ≤ N) i => copied_getElem_pad r result N k i hlt
  have hD : N ≤ k → ∀ c ∈ (r.take (min N k) ++ List.replicate (N - k) 0
      ++ result.drop N).take N, c ≠ 0 := by
    intro h c hc
    rw [copied_take_of_le r result N k hlt h] at hc
    exact strlen_take_ne hk c (List.take_subset_take_left r h hc)
  refine ⟨fun hr => ⟨fun h => ?_, fun h => ?_⟩, fun hr => ⟨fun h => ?_, fun h => ?_⟩,
    fun hr => ⟨fun h => ?_, fun h => ?_⟩⟩
  · exact ⟨_, by rw [e1 hr, hA h], hB h, hC h⟩
  · exact ⟨_, _, e1 hr, hD h⟩
  · exact ⟨_, by rw [e2 hr, hA h], hB h, hC h⟩
  · exact ⟨_, _, e2 hr, hD h⟩
  · exact ⟨_, by rw [e3 hr, hA h], hB h, hC h⟩
  · exact ⟨_, _, e3 hr, hD h⟩

/-- C10 at concrete calls: "ab" with capacity 5 is padded with zero bytes and
the length stays 5. -/
theorem string_wrappers_padding_witness :
    (∃ res, ctlgetstring (Lib.returning [97, 98, 0]) () [120, 32] 1 [1, 2, 3, 4, 5, 6] 5
        = some ([120, 0], res, 5)
        ∧ res.take 2 = [97, 98] ∧ ∀ i, 2 ≤ i → i < 5 → res[i]? = some 0) ∧
    (∃ res, stringlistref (Lib.returning [97, 98, 0]) () 0 [1, 2, 3, 4, 5, 6] 5
        = some (res, 5)
        ∧ res.take 2 = [97, 98] ∧ ∀ i, 2 ≤ i → i < 5 → res[i]? = some 0) ∧
    (∃ res, stringobjectproperty (Lib.returning [97, 98, 0]) () [120, 32] 1
          [1, 2, 3, 4, 5, 6] 5 = some ([120, 0], res, 5)
        ∧ res.take 2 = [97, 98] ∧ ∀ i, 2 ≤ i → i < 5 → res[i]? = some 0) :=
  have h := string_wrappers_padding (Lib.returning [97, 98, 0]) () () () 0
    [120, 32] 1 [1, 2, 3, 4, 5, 6] 5 [97, 98, 0] 2 (by decide) (by decide) (by decide)
  ⟨(h.1 rfl).1 (by decide), (h.2.1 rfl).1 (by decide), (h.2.2 rfl).1 (by decide)⟩

/-! ## String inputs -/

theorem strlen_set_zero (buf : List Byte) (len : Nat) (h : len < buf.length)
    (hnz : ∀ c ∈ buf.take len, c ≠ 0) :
    strlen (buf.set len 0) = some len ∧ (buf.set len 0).take len = buf.take len := by
  induction buf generalizing len with
  | nil => simp at h
  | cons b bs ih =>
    cases len with
    | zero => simp [strlen]
    | succ m =>
      have hb : b ≠ 0 := hnz b (by simp)
      have hm : m < bs.length := by simpa using h
      have := ih m hm (fun c hc => hnz c (by simp [hc]))
      simp [strlen, hb, this.1, this.2]

theorem storeNul_bind {β : Type} (buf : List Byte) (len : Nat) (f : List Byte → Option β) :
    (storeNul (fcp2ccp buf) len).bind f
      = if len < buf.length then f (buf.set len 0) else none := by
  by_cases h : len < buf.length <;> simp [storeNul, fcp2ccp, h]

/-- C9: each wrapper with a string input stores a zero byte at index `len` of
the buffer it is given and changes no other byte: the call is undefined
(`none`) unless `len < buf.length`, that is unless the buffer holds at least
`len + 1` bytes; the buffer on return, which is also what the library function
receives, is `buf.set len 0`; and when none of the first `len` bytes is zero,
the C string in that buffer is exactly the first `len` bytes of `buf`.  For
`ctlsetstring` the same holds of the value buffer (the last four parts, which
hold of every buffer, apply to it as well). -/
theorem string_inputs_nul_terminated (L : Lib number integer boolean list object σ) (st : σ) (o : object)
    (buf : List Byte) (len : Nat) :
    ctlgetnumber L st buf len
      = (if len < buf.length then
          (L.ctl_get_number st (buf.set len 0)).map (fun a => (buf.set len 0, a))
        else none) ∧
    ctlgetinteger L st buf len
      = (if len < buf.length then
          (L.ctl_get_integer st (buf.set len 0)).map (fun a => (buf.set len 0, a))
        else none) ∧
    ctlgetboolean L st buf len
      = (if len < buf.length then
          (L.ctl_get_boolean st (buf.set len 0)).map (fun a => (buf.set len 0, a))
        else none) ∧
    ctlgetlist L st buf len
      = (if len < buf.length then
          (L.ctl_get_list st (buf.set len 0)).map (fun a => (buf.set len 0, a))
        else none) ∧
    ctlgetobject L st buf len
      = (if len < buf.length then
          (L.ctl_get_object st (buf.set len 0)).map (fun a => (buf.set len 0, a))
        else none) ∧
    ctlgetvector3 L st buf len
      = (if len < buf.length then
          (L.ctl_get_vector3 st (buf.set len 0)).map (fun a => (buf.set len 0, a))
        else none) ∧
    (∀ result N, ctlgetstring L st buf len result N
      = (if len < buf.length then
          (L.ctl_get_string st (buf.set len 0)).bind (fun r =>
            (strncpy result r N).bind (fun res =>
              (strlen r).map (fun n =>
                (buf.set len 0, res, if N < n then intOfSize n else (N : Int)))))
        else none)) ∧
    (∀ a : number, ctlsetnumber L st buf len a
      = (if len < buf.length then
          (L.ctl_set_number st (buf.set len 0) a).map (fun st1 => (buf.set len 0, st1))
        else none)) ∧
    (∀ a : integer, ctlsetinteger L st buf len a
      = (if len < buf.length then
          (L.ctl_set_integer st (buf.set len 0) a).map (fun st1 => (buf.set len 0, st1))
        else none)) ∧
    (∀ a : boolean, ctlsetboolean L st buf len a
      = (if len < buf.length then
          (L.ctl_set_boolean st (buf.set len 0) a).map (fun st1 => (buf.set len 0, st1))
        else none)) ∧
    (∀ a : list, ctlsetlist L st buf len a
      = (if len < buf.length then
          (L.ctl_set_list st (buf.set len 0) a).map (fun st1 => (buf.set len 0, st1))
        else none)) ∧
    (∀ a : object, ctlsetobject L st buf len a
      = (if len < buf.length then
          (L.ctl_set_object st (buf.set len 0) a).map (fun st1 => (buf.set len 0, st1))
        else none)) ∧
    (∀ a : Vector3 number, ctlsetvector3 L st buf len a
      = (if len < buf.length then
          (L.ctl_set_vector3 st (buf.set len 0) a).map (fun st1 => (buf.set len 0, st1))
        else none)) ∧
    (∀ v vlen, ctlsetstring L st buf len v vlen
      = (if len < buf.length then
          if vlen < v.length then
            (L.ctl_set_string st (buf.set len 0) (v.set vlen 0)).map
              (fun st1 => (buf.set len 0, v.set vlen 0, st1))
          else none
        else none)) ∧
    objectismember L buf len o
      = (if len < buf.length then
          (L.object_is_member (buf.set len 0) o).map (fun a => (buf.set len 0, a))
        else none) ∧
    numberobjectproperty L o buf len
      = (if len < buf.length then
          (L.number_object_property o (buf.set len 0)).map (fun a => (buf.set len 0, a))
        else none) ∧
    integerobjectproperty L o buf len
      = (if len < buf.length then
          (L.integer_object_property o (buf.set len 0)).map (fun a => (buf.set len 0, a))
        else none) ∧
    booleanobjectproperty L o buf len
      = (if len < buf.length then
          (L.boolean_object_property o (buf.set len 0)).map (fun a => (buf.set len 0, a))
        else none) ∧
    vector3objectproperty L o buf len
      = (if len < buf.length then
          (L.vector3_object_property o (buf.set len 0)).map (fun a => (buf.set len 0, a))
        else none) ∧
    listobjectproperty L o buf len
      = (if len < buf.length then
          (L.list_object_property o (buf.set len 0)).map (fun a => (buf.set len 0, a))
        else none) ∧
    objectobjectproperty L o buf len
      = (if len < buf.length then
          (L.object_object_property o (buf.set len 0)).map (fun a => (buf.set len 0, a))
        else none) ∧
    (∀ result N, stringobjectproperty L o buf len result N
      = (if len < buf.length then
          (L.string_object_property o (buf.set len 0)).bind (fun r =>
            (strncpy result r N).bind (fun res =>
              (strlen r).map (fun n =>
                (buf.set len 0, res, if N < n then intOfSize n else (N : Int)))))
        else none)) ∧
    (len < buf.length → (buf.set len 0)[len]? = some 0) ∧
    (∀ i, i ≠ len → (buf.set len 0)[i]? = buf[i]?) ∧
    (buf.set len 0).length = buf.length ∧
    (len < buf.length → (∀ c ∈ buf.take len, c ≠ 0) →
      cstring (buf.set len 0) = some (buf.take len)) := by
  have hb : ∀ {α β : Type} (x : Option α) (g : α → β),
      (x.bind fun a => some (g a)) = x.map g := by
    intro α β x g
    cases x <;> rfl
  refine ⟨?_, ?_, ?_, ?_, ?_, ?_, ?_, ?_, ?_, ?_, ?_, ?_, ?_, ?_, ?_, ?_, ?_, ?_, ?_, ?_, ?_, ?_, ?_, ?_, ?_, ?_⟩
  · simp only [ctlgetnumber, Option.bind_eq_bind, storeNul_bind, Option.pure_def]
    split
    · exact hb _ _
    · rfl
  · simp only [ctlgetinteger, Option.bind_eq_bind, storeNul_bind, Option.pure_def]
    split
    · exact hb _ _
    · rfl
  · simp only [ctlgetboolean, Option.bind_eq_bind, storeNul_bind, Option.pure_def]
    split
    · exact hb _ _
    · rfl
  · simp only [ctlgetlist, Option.bind_eq_bind, storeNul_bind, Option.pure_def]
    split
    · exact hb _ _
    · rfl
  · simp only [ctlgetobject, Option.bind_eq_bind, storeNul_bind, Option.pure_def]
    split
    · exact hb _ _
    · rfl
  · simp only [ctlgetvector3, Option.bind_eq_bind, storeNul_bind, Option.pure_def]
    split
    · exact hb _ _
    · rfl
  · intro result N
    simp only [ctlgetstring, Option.bind_eq_bind, storeNul_bind, Option.pure_def]
    simp only [fcp2ccp, hb]
  · intro a
    simp only [ctlsetnumber, Option.bind_eq_bind, storeNul_bind, Option.pure_def]
    split
    · exact hb _ _
    · rfl
  · intro a
    simp only [ctlsetinteger, Option.bind_eq_bind, storeNul_bind, Option.pure_def]
    split
    · exact hb _ _
    · rfl
  · intro a
    simp only [ctlsetboolean, Option.bind_eq_bind, storeNul_bind, Option.pure_def]
    split
    · exact hb _ _
    · rfl
  · intro a
    simp only [ctlsetlist, Option.bind_eq_bind, storeNul_bind, Option.pure_def]
    split
    · exact hb _ _
    · rfl
  · intro a
    simp only [ctlsetobject, Option.bind_eq_bind, storeNul_bind, Option.pure_def]
    split
    · exact hb _ _
    · rfl
  · intro a
    simp only [ctlsetvector3, Option.bind_eq_bind, storeNul_bind, Option.pure_def]
    split
    · exact hb _ _
    · rfl
  · intro v vlen
    simp only [ctlsetstring, Option.bind_eq_bind, storeNul_bind, Option.pure_def]
    split
    · split
      · exact hb _ _
      · rfl
    · rfl
  · simp only [objectismember, Option.bind_eq_bind, storeNul_bind, Option.pure_def]
    split
    · exact hb _ _
    · rfl
  · simp only [numberobjectproperty, Option.bind_eq_bind, storeNul_bind, Option.pure_def]
    split
    · exact hb _ _
    · rfl
  · simp only [integerobjectproperty, Option.bind_eq_bind, storeNul_bind, Option.pure_def]
    split
    · exact hb _ _
    · rfl
  · simp only [booleanobjectproperty, Option.bind_eq_bind, storeNul_bind, Option.pure_def]
    split
    · exact hb _ _
    · rfl
  · simp only [vector3objectproperty, Option.bind_eq_bind, storeNul_bind, Option.pure_def]
    split
    · exact hb _ _
    · rfl
  · simp only [listobjectproperty, Option.bind_eq_bind, storeNul_bind, Option.pure_def]
    split
    · exact hb _ _
    · rfl
  · simp only [objectobjectproperty, Option.bind_eq_bind, storeNul_bind, Option.pure_def]
    split
    · exact hb _ _
    · rfl
  · intro result N
    simp only [stringobjectproperty, Option.bind_eq_bind, storeNul_bind, Option.pure_def]
    simp only [fcp2ccp, hb]
  · intro h
    simp [h]
  · intro i hi
    exact List.getElem?_set_ne (Ne.symm hi)
  · simp
  · intro h hnz
    have := strlen_set_zero buf len h hnz
    simp [cstring, this.1, this.2]

/-- C9 at concrete buffers: a buffer of exactly 2 bytes with length 2 makes
the call undefined, a buffer of 3 bytes hands the first 2 bytes over. -/
theorem string_inputs_nul_terminated_witness :
    ctlgetnumber (Lib.returning []) () [120, 121] 2 = none ∧
    cstring ([120, 121, 32].set 2 0) = some [120, 121] :=
  ⟨(string_inputs_nul_terminated (Lib.returning []) () () [120, 121] 2).1.trans
      (if_neg (by decide)),
    (string_inputs_nul_terminated (Lib.returning []) () () [120, 121, 32] 2).2.2.2.2.2.2.2.2.2.2.2.2.2.2.2.2.2.2.2.2.2.2.2.2.2
      (by decide) (by decide)⟩

/-! ## Vector functions -/

theorem loadVector3_storeVector3 (m : Mem number) (p : Nat) (w : Vector3 number) :
    loadVector3 (storeVector3 m p w) p = w := by
  cases w
  simp [loadVector3, storeVector3]

/-- C7: each vector wrapper leaves at its output address exactly the value
the library function returns for the values found at the input addresses, in
the order of the source: `vector3_scale(*s, *v)`, `vector3_plus(*v1, *v2)`,
`vector3_minus(*v1, *v2)`, `vector3_cross(*v1, *v2)`, `vector3_dot(*v1, *v2)`
and `vector3_norm(*v)`; also when the output address overlaps an input. -/
theorem vector_wrappers_store_library_result (L : Lib number integer boolean list object σ)
    (m : Mem number) (s v v1 v2 out : Nat) :
    loadVector3 (vector3scale L s v out m) out = L.vector3_scale (m s) (loadVector3 m v) ∧
    loadVector3 (vector3plus L v1 v2 out m) out
      = L.vector3_plus (loadVector3 m v1) (loadVector3 m v2) ∧
    loadVector3 (vector3minus L v1 v2 out m) out
      = L.vector3_minus (loadVector3 m v1) (loadVector3 m v2) ∧
    loadVector3 (vector3cross L v1 v2 out m) out
      = L.vector3_cross (loadVector3 m v1) (loadVector3 m v2) ∧
    vector3dot L v1 v2 out m out = L.vector3_dot (loadVector3 m v1) (loadVector3 m v2) ∧
    vector3norm L v out m out = L.vector3_norm (loadVector3 m v) := by
  refine ⟨?_, ?_, ?_, ?_, ?_, ?_⟩
  · exact loadVector3_storeVector3 _ _ _
  · exact loadVector3_storeVector3 _ _ _
  · exact loadVector3_storeVector3 _ _ _
  · exact loadVector3_storeVector3 _ _ _
  · simp [vector3dot, storeNumber]
  · simp [vector3norm, storeNumber]

/-! ## External names -/

/-- Evaluation for C8: under the upper-case convention the wrapper of
`vector3_norm` gets the external name `VECTOR3DOT`, which is not the name
`VECTOR3NORM` the rule gives and is the name of the wrapper of `vector3_dot`,
so that the upper-case names are not pairwise distinct. -/
theorem vector3norm_upper_name_is_vector3dot :
    (⟨"vector3_norm", "vector3norm", "VECTOR3DOT"⟩ : Wrapper) ∈ wrappers ∧
    (⟨"vector3_dot", "vector3dot", "VECTOR3DOT"⟩ : Wrapper) ∈ wrappers ∧
    externalName .upper ⟨"vector3_norm", "vector3norm", "VECTOR3DOT"⟩ = "VECTOR3DOT" ∧
    externalName .upper ⟨"vector3_dot", "vector3dot", "VECTOR3DOT"⟩ = "VECTOR3DOT" ∧
    specName .upper "vector3_norm" = "VECTOR3NORM" ∧
    ¬ (wrappers.map (externalName .upper)).Nodup := by
  decide

/-- The rest of C8 holds of the code: under the two lower-case conventions
every wrapper has the name the rule gives and the names are pairwise distinct,
and under the upper-case convention every wrapper but that of `vector3_norm`
has the name the rule gives. -/
theorem external_names_follow_rule_elsewhere :
    (∀ w ∈ wrappers, externalName .lower w = specName .lower w.cname
      ∧ externalName .lowerUnderscore w = specName .lowerUnderscore w.cname
      ∧ (w.cname ≠ "vector3_norm" → externalName .upper w = specName .upper w.cname)) ∧
    (wrappers.map (externalName .lower)).Nodup ∧
    (wrappers.map (externalName .lowerUnderscore)).Nodup := by
  decide

/-! ## The library of the specification: variables -/

theorem strlen_of_zero (s : List Byte) (i : Nat) (h : s[i]? = some 0) :
    ∃ k, strlen s = some k := by
  induction s generalizing i with
  | nil => simp at h
  | cons c cs ih =>
    by_cases hc : c = 0
    · exact ⟨0, by simp [strlen, hc]⟩
    · cases i with
      | zero => simp at h; exact absurd h hc
      | succ j =>
        obtain ⟨k, hk⟩ := ih j (by simpa using h)
        exact ⟨k + 1, by simp [strlen, hc, hk]⟩

theorem cstring_set_zero (buf : List Byte) (len : Nat) (h : len < buf.length) :
    ∃ nm, cstring (buf.set len 0) = some nm := by
  obtain ⟨k, hk⟩ := strlen_of_zero (buf.set len 0) len (by simp [h])
  exact ⟨(buf.set len 0).take k, by simp [cstring, hk]⟩

theorem Store.write_read (st : Store number integer boolean object) (s : List Byte)
    (v : Value number integer boolean object) (nm : List Byte) (h : cstring s = some nm) :
    ∃ st1, Store.write st s v = some st1 ∧ Store.read st1 s = some v := by
  refine ⟨fun k => if k = nm then some v else st k, ?_, ?_⟩
  · simp [Store.write, h]
  · simp [Store.read, h]

theorem copied_take_mid (r result : List Byte) (N k m : Nat)
    (hk : k < r.length) (h1 : k ≤ m) (h2 : m ≤ N) :
    (r.take (min N k) ++ List.replicate (N - k) 0 ++ result.drop N).take m
      = r.take k ++ List.replicate (m - k) 0 := by
  have e1 : min N k = k := by omega
  have e3 : (r.take k).length = k := by
    rw [List.length_take]
    omega
  have e4 : (List.replicate (N - k) (0 : Byte)).length = N - k := List.length_replicate _ _
  have e5 : min (m - k) (N - k) = m - k := by omega
  have e6 : m - k - (N - k) = 0 := by omega
  rw [e1, List.take_append_eq_append_take, List.take_append_eq_append_take, e3,
    List.length_append, e3, e4, List.take_replicate, e5]
  have e7 : m - (k + (N - k)) = 0 := by omega
  rw [e7, List.take_zero, List.append_nil, List.take_of_length_le (by omega)]

/-- A buffer `V` followed by a zero byte, read as a C string of length `j` and
padded with zero bytes to the length of `V`, is `V` again exactly when no
non-zero byte of `V` follows a zero byte. -/
theorem take_pad_eq_iff (V rest : List Byte) (j : Nat)
    (h : strlen (V ++ 0 :: rest) = some j) :
    j ≤ V.length ∧
    ((V ++ 0 :: rest).take j ++ List.replicate (V.length - j) 0 = V ↔
      ∀ b, b < V.length → ∀ a, a < b → V[a]? = some 0 → V[b]? = some 0) := by
  induction V generalizing j with
  | nil =>
    simp [strlen] at h
    subst h
    simp
  | cons c cs ih =>
    by_cases hc : c = 0
    · subst hc
      simp [strlen] at h
      subst h
      refine ⟨Nat.zero_le _, ?_⟩
      simp only [List.take_zero, List.nil_append, List.length_cons, Nat.sub_zero,
        List.replicate_succ, List.cons.injEq, true_and]
      constructor
      · intro e b hb a _ _
        rw [← e]
        cases b with
        | zero => simp
        | succ b' =>
          have hb' : b' < cs.length := by omega
          simp [List.getElem?_replicate, hb']
      · intro H
        symm
        refine List.eq_replicate_iff.mpr ⟨rfl, fun d hd => ?_⟩
        obtain ⟨i, hi⟩ := List.mem_iff_getElem?.mp hd
        have hil : i < cs.length := by
          rcases Nat.lt_or_ge i cs.length with h1 | h1
          · exact h1
          · rw [List.getElem?_eq_none h1] at hi
            cases hi
        have := H (i + 1) (by omega) 0 (by omega) (by simp)
        simp only [List.getElem?_cons_succ] at this
        rw [hi] at this
        exact Option.some.inj this
    · simp only [List.cons_append, strlen, hc, if_false, Option.map_eq_some'] at h
      obtain ⟨j', hj', rfl⟩ := h
      obtain ⟨hle, hiff⟩ := ih j' hj'
      refine ⟨by simp only [List.length_cons]; omega, ?_⟩
      simp only [List.cons_append, List.take_succ_cons, List.length_cons,
        Nat.add_sub_add_right, List.cons.injEq, true_and]
      rw [hiff]
      constructor
      · intro H b hb a ha h0
        cases a with
        | zero =>
          simp only [List.getElem?_cons_zero, Option.some.injEq] at h0
          exact absurd h0 hc
        | succ a' =>
          cases b with
          | zero => omega
          | succ b' =>
            simp only [List.getElem?_cons_succ] at h0 ⊢
            exact H b' (by omega) a' (by omega) h0
      · intro H b hb a ha h0
        have := H (b + 1) (by omega) (a + 1) (by omega) (by simpa using h0)
        simpa using this

/-- C5, amended: in the library of the specification (a store from identifier
strings to typed values), for an identifier buffer that holds more than `len`
bytes, each setter followed by the getter of the same type on the same buffer
and length returns the value that was set, for number, integer, boolean,
vector3, list and object; and `ctlsetstring` followed by `ctlgetstring` with a
capacity `cap ≥ vlen` leaves the first `vlen` bytes of the result equal to the
first `vlen` bytes of the value exactly when, among these `vlen` bytes of the
value, no non-zero byte follows a zero byte (the value buffer holding more
than `vlen` bytes, the result buffer at least `cap`). -/
theorem set_then_get_round_trip (B : Lib number integer boolean (List (Value number integer boolean object)) object (Store number integer boolean object)) (st : Store number integer boolean object)
    (buf : List Byte) (len : Nat) (hlen : len < buf.length) :
    (∀ a : number, ∃ st1,
      ctlsetnumber (storeLib B) st buf len a = some (buf.set len 0, st1) ∧
      ctlgetnumber (storeLib B) st1 (buf.set len 0) len = some (buf.set len 0, a)) ∧
    (∀ a : integer, ∃ st1,
      ctlsetinteger (storeLib B) st buf len a = some (buf.set len 0, st1) ∧
      ctlgetinteger (storeLib B) st1 (buf.set len 0) len = some (buf.set len 0, a)) ∧
    (∀ a : boolean, ∃ st1,
      ctlsetboolean (storeLib B) st buf len a = some (buf.set len 0, st1) ∧
      ctlgetboolean (storeLib B) st1 (buf.set len 0) len = some (buf.set len 0, a)) ∧
    (∀ a : Vector3 number, ∃ st1,
      ctlsetvector3 (storeLib B) st buf len a = some (buf.set len 0, st1) ∧
      ctlgetvector3 (storeLib B) st1 (buf.set len 0) len = some (buf.set len 0, a)) ∧
    (∀ a : List (Value number integer boolean object), ∃ st1,
      ctlsetlist (storeLib B) st buf len a = some (buf.set len 0, st1) ∧
      ctlgetlist (storeLib B) st1 (buf.set len 0) len = some (buf.set len 0, a)) ∧
    (∀ a : object, ∃ st1,
      ctlsetobject (storeLib B) st buf len a = some (buf.set len 0, st1) ∧
      ctlgetobject (storeLib B) st1 (buf.set len 0) len = some (buf.set len 0, a)) ∧
    (∀ (value : List Byte) (vlen : Nat) (result : List Byte) (cap : Nat),
      vlen < value.length → cap ≤ result.length → vlen ≤ cap →
      ∃ st1 res n,
        ctlsetstring (storeLib B) st buf len value vlen
          = some (buf.set len 0, value.set vlen 0, st1) ∧
        ctlgetstring (storeLib B) st1 (buf.set len 0) len result cap
          = some (buf.set len 0, res, n) ∧
        (res.take vlen = value.take vlen ↔
          ∀ b, b < vlen → ∀ a, a < b → value[a]? = some 0 → value[b]? = some 0)) := by
  obtain ⟨nm, hnm⟩ := cstring_set_zero buf len hlen
  refine ⟨?_, ?_, ?_, ?_, ?_, ?_, ?_⟩
  · intro a
    obtain ⟨st1, hw, hr⟩ := Store.write_read st (buf.set len 0) (.number a) nm hnm
    refine ⟨st1, ?_, ?_⟩
    · simp [ctlsetnumber, storeNul_bind, hlen, storeLib, hw]
    · simp [ctlgetnumber, storeNul_bind, hlen, storeLib, hr, Value.number?, List.set_set]
  · intro a
    obtain ⟨st1, hw, hr⟩ := Store.write_read st (buf.set len 0) (.integer a) nm hnm
    refine ⟨st1, ?_, ?_⟩
    · simp [ctlsetinteger, storeNul_bind, hlen, storeLib, hw]
    · simp [ctlgetinteger, storeNul_bind, hlen, storeLib, hr, Value.integer?, List.set_set]
  · intro a
    obtain ⟨st1, hw, hr⟩ := Store.write_read st (buf.set len 0) (.boolean a) nm hnm
    refine ⟨st1, ?_, ?_⟩
    · simp [ctlsetboolean, storeNul_bind, hlen, storeLib, hw]
    · simp [ctlgetboolean, storeNul_bind, hlen, storeLib, hr, Value.boolean?, List.set_set]
  · intro a
    obtain ⟨st1, hw, hr⟩ := Store.write_read st (buf.set len 0) (.vector3 a) nm hnm
    refine ⟨st1, ?_, ?_⟩
    · simp [ctlsetvector3, storeNul_bind, hlen, storeLib, hw]
    · simp [ctlgetvector3, storeNul_bind, hlen, storeLib, hr, Value.vector3?, List.set_set]
  · intro a
    obtain ⟨st1, hw, hr⟩ := Store.write_read st (buf.set len 0) (.list a) nm hnm
    refine ⟨st1, ?_, ?_⟩
    · simp [ctlsetlist, storeNul_bind, hlen, storeLib, hw]
    · simp [ctlgetlist, storeNul_bind, hlen, storeLib, hr, Value.list?, List.set_set]
  · intro a
    obtain ⟨st1, hw, hr⟩ := Store.write_read st (buf.set len 0) (.object a) nm hnm
    refine ⟨st1, ?_, ?_⟩
    · simp [ctlsetobject, storeNul_bind, hlen, storeLib, hw]
    · simp [ctlgetobject, storeNul_bind, hlen, storeLib, hr, Value.object?, List.set_set]
  · intro value vlen result cap hv hcap hle
    have hVl : (value.take vlen).length = vlen := by
      rw [List.length_take]
      omega
    have hset : value.set vlen 0 = value.take vlen ++ 0 :: value.drop (vlen + 1) := by
      rw [List.set_eq_take_append_cons_drop, if_pos hv]
    obtain ⟨j, hj⟩ := strlen_of_zero (value.set vlen 0) vlen (by simp [hv])
    have hjX := hj
    rw [hset] at hjX
    obtain ⟨hjle, hiff⟩ := take_pad_eq_iff (value.take vlen) (value.drop (vlen + 1)) j hjX
    rw [hVl] at hjle hiff
    have hjlt := strlen_lt hj
    have hcl : ((value.set vlen 0).take j).length = j := by
      rw [List.length_take]
      omega
    have hcs : cstring (value.set vlen 0) = some ((value.set vlen 0).take j) := by
      simp [cstring, hj]
    obtain ⟨st1, hw, hr⟩ :=
      Store.write_read st (buf.set len 0) (.string ((value.set vlen 0).take j)) nm hnm
    have hlen1 : len < (buf.set len 0).length := by simpa using hlen
    have hk : strlen ((value.set vlen 0).take j ++ [0]) = some j := by
      rw [strlen_append_zero _ (strlen_take_ne hj), hcl]
    have hget : (storeLib B).ctl_get_string st1 ((buf.set len 0).set len 0)
        = some ((value.set vlen 0).take j ++ [0]) := by
      simp [storeLib, List.set_set, hr, Value.string?]
    have hres := ctlgetstring_eq (storeLib B) st1 (buf.set len 0) len result cap
      ((value.set vlen 0).take j ++ [0]) j hlen1 hget hk hcap
    rw [List.set_set] at hres
    refine ⟨st1, _, _, ?_, hres, ?_⟩
    · simp [ctlsetstring, storeNul_bind, hlen, hv, storeLib, hcs, hw]
    · rw [copied_take_mid _ result cap j vlen (strlen_lt hk) hjle hle, List.take_left' hcl,
        hset, hiff]
      constructor
      · intro H b hb a ha h0
        have h1 := H b hb a ha (by rw [List.getElem?_take_of_lt (by omega)]; exact h0)
        rwa [List.getElem?_take_of_lt hb] at h1
      · intro H b hb a ha h0
        rw [List.getElem?_take_of_lt (by omega)] at h0
        rw [List.getElem?_take_of_lt hb]
        exact H b hb a ha h0

/-- C5 fails as stated: the value "a", zero, "b" of length 3 is set and then
read back with capacity 3; the first 3 bytes of the result are "a", zero,
zero, not the first 3 bytes of the value. -/
theorem set_then_get_string_with_zero_byte :
    ((ctlsetstring sampleLib Store.empty [110, 32] 1 [97, 0, 98, 32] 3).bind (fun t =>
        ctlgetstring sampleLib t.2.2 t.1 1 [1, 1, 1] 3)).map (fun t => t.2.1.take 3)
      = some [97, 0, 0] ∧
    ([97, 0, 98, 32] : List Byte).take 3 = [97, 0, 98] := by
  decide

/-- C5, amended, at concrete calls: the number 42, and the string "ab"
followed by zero bytes, of length 5, under the identifier "n". -/
theorem set_then_get_round_trip_witness :
    (∃ st1, ctlsetnumber sampleLib Store.empty [110, 32] 1 42 = some ([110, 0], st1) ∧
      ctlgetnumber sampleLib st1 [110, 0] 1 = some ([110, 0], 42)) ∧
    (∃ st1 res n, ctlsetstring sampleLib Store.empty [110, 32] 1 [97, 98, 0, 0, 0, 32] 5
        = some ([110, 0], [97, 98, 0, 0, 0, 0], st1) ∧
      ctlgetstring sampleLib st1 [110, 0] 1 [1, 1, 1, 1, 1] 5 = some ([110, 0], res, n) ∧
      res.take 5 = [97, 98, 0, 0, 0]) :=
  have h := set_then_get_round_trip Lib.failing Store.empty [110, 32] 1 (by decide)
  have ⟨st1, res, n, h1, h2, h3⟩ := h.2.2.2.2.2.2 [97, 98, 0, 0, 0, 32] 5 [1, 1, 1, 1, 1] 5
    (by decide) (by decide) (by decide)
  ⟨h.1 42, st1, res, n, h1, h2, h3.mpr (by decide)⟩

/-! ## The library of the specification: lists -/

/-- C6: in the library of the specification (a list is the sequence
`make_T_list` builds, `T_list_ref` indexes into it), for every element type
number, integer, boolean, vector3, list and object, every array `items` of at
least `n` elements and every index `i < n`: `makeTlist` with `n` and `items`
returns a list `l` for which `Tlistref` at index `i`, passed as it is, returns
`items[i]`, and `listlength` returns `n`. -/
theorem make_list_then_ref (B : Lib number integer boolean (List (Value number integer boolean object)) object (Store number integer boolean object)) (n i : Nat) (hi : i < n) :
    (∀ (items : List (number)) (_ : n ≤ items.length), ∃ l,
      makenumberlist (storeLib B) n items = some l ∧
      numberlistref (storeLib B) l i = some items[i] ∧
      listlength (storeLib B) l = some (n : Int)) ∧
    (∀ (items : List (integer)) (_ : n ≤ items.length), ∃ l,
      makeintegerlist (storeLib B) n items = some l ∧
      integerlistref (storeLib B) l i = some items[i] ∧
      listlength (storeLib B) l = some (n : Int)) ∧
    (∀ (items : List (boolean)) (_ : n ≤ items.length), ∃ l,
      makebooleanlist (storeLib B) n items = some l ∧
      booleanlistref (storeLib B) l i = some items[i] ∧
      listlength (storeLib B) l = some (n : Int)) ∧
    (∀ (items : List (Vector3 number)) (_ : n ≤ items.length), ∃ l,
      makevector3list (storeLib B) n items = some l ∧
      vector3listref (storeLib B) l i = some items[i] ∧
      listlength (storeLib B) l = some (n : Int)) ∧
    (∀ (items : List (List (Value number integer boolean object))) (_ : n ≤ items.length), ∃ l,
      makelistlist (storeLib B) n items = some l ∧
      listlistref (storeLib B) l i = some items[i] ∧
      listlength (storeLib B) l = some (n : Int)) ∧
    (∀ (items : List (object)) (_ : n ≤ items.length), ∃ l,
      makeobjectlist (storeLib B) n items = some l ∧
      objectlistref (storeLib B) l i = some items[i] ∧
      listlength (storeLib B) l = some (n : Int)) := by
  refine ⟨?_, ?_, ?_, ?_, ?_, ?_⟩
  · intro items hn
    have hi2 : i < items.length := by omega
    refine ⟨(items.take n).map Value.number, ?_, ?_, ?_⟩
    · simp [makenumberlist, storeLib, takeItems, hn]
    · simp [numberlistref, storeLib, Value.item, List.getElem?_take_of_lt hi, hi2, Value.number?]
    · simp [listlength, storeLib, hn]
  · intro items hn
    have hi2 : i < items.length := by omega
    refine ⟨(items.take n).map Value.integer, ?_, ?_, ?_⟩
    · simp [makeintegerlist, storeLib, takeItems, hn]
    · simp [integerlistref, storeLib, Value.item, List.getElem?_take_of_lt hi, hi2, Value.integer?]
    · simp [listlength, storeLib, hn]
  · intro items hn
    have hi2 : i < items.length := by omega
    refine ⟨(items.take n).map Value.boolean, ?_, ?_, ?_⟩
    · simp [makebooleanlist, storeLib, takeItems, hn]
    · simp [booleanlistref, storeLib, Value.item, List.getElem?_take_of_lt hi, hi2, Value.boolean?]
    · simp [listlength, storeLib, hn]
  · intro items hn
    have hi2 : i < items.length := by omega
    refine ⟨(items.take n).map Value.vector3, ?_, ?_, ?_⟩
    · simp [makevector3list, storeLib, takeItems, hn]
    · simp [vector3listref, storeLib, Value.item, List.getElem?_take_of_lt hi, hi2, Value.vector3?]
    · simp [listlength, storeLib, hn]
  · intro items hn
    have hi2 : i < items.length := by omega
    refine ⟨(items.take n).map Value.list, ?_, ?_, ?_⟩
    · simp [makelistlist, storeLib, takeItems, hn]
    · simp [listlistref, storeLib, Value.item, List.getElem?_take_of_lt hi, hi2, Value.list?]
    · simp [listlength, storeLib, hn]
  · intro items hn
    have hi2 : i < items.length := by omega
    refine ⟨(items.take n).map Value.object, ?_, ?_, ?_⟩
    · simp [makeobjectlist, storeLib, takeItems, hn]
    · simp [objectlistref, storeLib, Value.item, List.getElem?_take_of_lt hi, hi2, Value.object?]
    · simp [listlength, storeLib, hn]

/-- C6 at a concrete call: three numbers, index 2. -/
theorem make_list_then_ref_witness :
    ∃ l, makenumberlist sampleLib 3 [10, 20, 30] = some l ∧
      numberlistref sampleLib l 2 = some 30 ∧
      listlength sampleLib l = some 3 :=
  (make_list_then_ref Lib.failing 3 2 (by decide)).1 [10, 20, 30] (by decide)

end CtlF77

